import Mathlib

/-!
Verification of the Index / IndexVal core of a tensor-network library
(src/itensor/index.h), shallowly embedded in Lean 4.

Machine integers are modelled as Nat (for the unsigned 32-bit id) and Int
(for the signed prime level and the long bond dimension); field widths enter
only in the binary codec, where they are made explicit.  The process-global
id generator (an mt19937 seeded from time and pid) is nondeterministic state,
so the named constructor takes the generated id as an explicit parameter.
Debug-only fatal checks are modelled as Option-returning variants alongside
the unchecked release-mode functions.
-/

namespace itensor

/-- IndexType tag enumeration from the source, in declaration order. -/
inductive IndexType where
  | Link
  | Site
  | All
  | NullIndex
  | Xind
  | Yind
  | Zind
  | Wind
  | Vind
deriving DecidableEq

open IndexType

/-- The Index value type: fields in source declaration order
(id_, primelevel_, m_, type_, sname_). -/
structure Index where
  id_ : Nat
  primelevel_ : Int
  m_ : Int
  type_ : IndexType
  sname_ : String
deriving DecidableEq

/-- Accessor m(): the bond dimension. -/
def Index.m (i : Index) : Int := i.m_

/-- Accessor primeLevel(). -/
def Index.primeLevel (i : Index) : Int := i.primelevel_

/-- Accessor type(). -/
def Index.type (i : Index) : IndexType := i.type_

/-- Accessor rawname(): the undecorated name. -/
def Index.rawname (i : Index) : String := i.sname_

/-- Accessor id(). -/
def Index.id (i : Index) : Nat := i.id_

/-- Modelled from the spec: the body of Index::name() is not under src
(declaration only); the spec says the display name is the raw name with
trailing prime marks derived from primeLevel. -/
def Index.name (i : Index) : String :=
  i.sname_ ++ String.mk (List.replicate i.primelevel_.toNat (Char.ofNat 39))

/-- operator bool: false exactly for a NullIndex-typed (default) Index. -/
def Index.toBool (i : Index) : Bool := i.type_ != NullIndex

/-- Default constructor Index(): id 0, primelevel 0, m 1, type NullIndex,
empty name. -/
def Index.default : Index := ⟨0, 0, 1, NullIndex, ""⟩

/-- Named constructor Index(name, m, type, plev).  The id produced by
generateID() is passed in as the parameter idv. -/
def Index.mkNamed (name : String) (m : Int) (type : IndexType) (plev : Int)
    (idv : Nat) : Index :=
  ⟨idv, plev, m, type, name⟩

/-- The named constructor together with its debug-build check: constructing
with type All or NullIndex calls Error (fatal), modelled as none. -/
def Index.mkNamedDebug (name : String) (m : Int) (type : IndexType) (plev : Int)
    (idv : Nat) : Option Index :=
  if type = All ∨ type = NullIndex then none
  else some (Index.mkNamed name m type plev idv)

/-- operator==: id equal and primelevel equal. -/
def Index.beq (a b : Index) : Bool :=
  a.id_ == b.id_ && a.primelevel_ == b.primelevel_

/-- operator!=: the negation of operator==. -/
def Index.bne (a b : Index) : Bool := !(Index.beq a b)

/-- noprimeEquals: id equal, primelevel ignored. -/
def Index.noprimeEquals (a b : Index) : Bool := a.id_ == b.id_

/-- operator<: by m; on tie by id; on tie by primelevel. -/
def Index.lt (a b : Index) : Bool :=
  if a.m_ = b.m_ then
    if a.id_ = b.id_ then decide (a.primelevel_ < b.primelevel_)
    else decide (a.id_ < b.id_)
  else decide (a.m_ < b.m_)

/-- operator>: by m; on tie by id; on tie by primelevel, all reversed. -/
def Index.gt (a b : Index) : Bool :=
  if a.m_ = b.m_ then
    if a.id_ = b.id_ then decide (b.primelevel_ < a.primelevel_)
    else decide (b.id_ < a.id_)
  else decide (b.m_ < a.m_)

/-- Member prime(inc): unconditionally adds inc to primelevel (release mode,
no check). -/
def Index.prime (i : Index) (inc : Int) : Index :=
  { i with primelevel_ := i.primelevel_ + inc }

/-- Member prime(inc) together with its debug-build check: after the
addition, a negative primelevel calls Error (fatal), modelled as none. -/
def Index.primeDebug (i : Index) (inc : Int) : Option Index :=
  if i.primelevel_ + inc < 0 then none else some (Index.prime i inc)

/-- Modelled from the spec: the body of Index::prime(IndexType, int) is not
under src (declaration only); the spec says inc is added only if this
Index's type equals the given type or the given type is the wildcard All,
otherwise the call is a no-op. -/
def Index.primeT (i : Index) (t : IndexType) (inc : Int) : Index :=
  if t = All ∨ t = i.type_ then { i with primelevel_ := i.primelevel_ + inc }
  else i

/-- Member noprime(type): the source body is prime(type, -primelevel_). -/
def Index.noprime (i : Index) (t : IndexType) : Index :=
  Index.primeT i t (-i.primelevel_)

/-- Modelled from the spec: the body of Index::mapprime is not under src
(declaration only); the spec says primeLevel switches from exactly plevold
to plevnew when the current level equals plevold and the type matches
(equals t, or t is All); otherwise level and name are left untouched. -/
def Index.mapprime (i : Index) (plevold plevnew : Int) (t : IndexType) : Index :=
  if i.primelevel_ = plevold ∧ (t = All ∨ t = i.type_) then
    { i with primelevel_ := plevnew }
  else i

/-- IndexVal: an Index paired with a value for that leg. -/
structure IndexVal where
  index : Index
  val : Int
deriving DecidableEq

/-- IndexVal::m(): delegates to the wrapped Index. -/
def IndexVal.m (iv : IndexVal) : Int := iv.index.m

/-- IndexVal::prime(inc): delegates to the wrapped Index. -/
def IndexVal.prime (iv : IndexVal) (inc : Int) : IndexVal :=
  { iv with index := iv.index.prime inc }

/-- IndexVal::prime(type, inc): delegates to the wrapped Index. -/
def IndexVal.primeT (iv : IndexVal) (t : IndexType) (inc : Int) : IndexVal :=
  { iv with index := iv.index.primeT t inc }

/-- IndexVal::noprime(type): delegates to the wrapped Index. -/
def IndexVal.noprime (iv : IndexVal) (t : IndexType) : IndexVal :=
  { iv with index := iv.index.noprime t }

/-- IndexVal::mapprime: delegates to the wrapped Index. -/
def IndexVal.mapprime (iv : IndexVal) (plevold plevnew : Int) (t : IndexType) :
    IndexVal :=
  { iv with index := iv.index.mapprime plevold plevnew t }

/-- The capability the free-function templates are instantiated at: any T
with the member prime/noprime/mapprime operations (Index and IndexVal). -/
class PrimeLike (T : Type) where
  primeMember : T → Int → T
  primeTMember : T → IndexType → Int → T
  noprimeMember : T → IndexType → T
  mapprimeMember : T → Int → Int → IndexType → T

instance : PrimeLike Index :=
  ⟨Index.prime, Index.primeT, Index.noprime, Index.mapprime⟩

instance : PrimeLike IndexVal :=
  ⟨IndexVal.prime, IndexVal.primeT, IndexVal.noprime, IndexVal.mapprime⟩

/-- Free-function template prime(T I, inc): I is taken by value, the member
prime is applied to the copy and the copy is returned. -/
def prime {T : Type} [PrimeLike T] (I : T) (inc : Int) : T :=
  PrimeLike.primeMember I inc

/-- Free-function template prime(T I, type, inc), by value. -/
def primeOfType {T : Type} [PrimeLike T] (I : T) (t : IndexType) (inc : Int) : T :=
  PrimeLike.primeTMember I t inc

/-- Free-function template noprime(T I, type), by value. -/
def noprime {T : Type} [PrimeLike T] (I : T) (t : IndexType) : T :=
  PrimeLike.noprimeMember I t

/-- Free-function template mapPrime(T I, plevold, plevnew, type), by value. -/
def mapPrime {T : Type} [PrimeLike T] (I : T) (plevold plevnew : Int)
    (t : IndexType) : T :=
  PrimeLike.mapprimeMember I plevold plevnew t

/-- Little-endian base-256 encoding of n on k bytes. -/
def toBytes : Nat → Nat → List Nat
  | 0, _ => []
  | k + 1, n => n % 256 :: toBytes k (n / 256)

/-- Reads k little-endian base-256 bytes off the stream; none on a
truncated stream. -/
def readBytes : Nat → List Nat → Option (Nat × List Nat)
  | 0, s => some (0, s)
  | _ + 1, [] => none
  | k + 1, b :: s =>
    match readBytes k s with
    | none => none
    | some (n, rest) => some (b + 256 * n, rest)

/-- Two's-complement encoding of a signed w-bit integer as a Nat. -/
def encInt (w : Nat) (i : Int) : Nat := (i % ((2 : Int) ^ w)).toNat

/-- Two's-complement decoding of a signed w-bit integer. -/
def decInt (w : Nat) (n : Nat) : Int :=
  if n < 2 ^ (w - 1) then (n : Int) else (n : Int) - (2 : Int) ^ w

/-- Integer ordinal of an IndexType, in enumeration order. -/
def IndexType.toOrdinal : IndexType → Nat
  | Link => 0
  | Site => 1
  | All => 2
  | NullIndex => 3
  | Xind => 4
  | Yind => 5
  | Zind => 6
  | Wind => 7
  | Vind => 8

/-- Decoding of an ordinal back to an IndexType; none when out of range. -/
def IndexType.ofOrdinal : Nat → Option IndexType
  | 0 => some Link
  | 1 => some Site
  | 2 => some All
  | 3 => some NullIndex
  | 4 => some Xind
  | 5 => some Yind
  | 6 => some Zind
  | 7 => some Wind
  | 8 => some Vind
  | _ => none

/-- Reads k name bytes off the stream as characters; none on a truncated
stream. -/
def readChars : Nat → List Nat → Option (List Char × List Nat)
  | 0, s => some ([], s)
  | _ + 1, [] => none
  | k + 1, b :: s =>
    match readChars k s with
    | none => none
    | some (cs, rest) => some (Char.ofNat b :: cs, rest)

/-- Modelled from the spec: Index::write's body is not under src
(declaration only); the spec fixes the persisted field order as id (the
unsigned 32-bit IDType), primeLevel (signed int), m (signed long), the
type's integer ordinal, then the name as a length-prefixed byte
sequence. -/
def Index.write (x : Index) : List Nat :=
  toBytes 4 x.id_ ++ toBytes 4 (encInt 32 x.primelevel_) ++
    toBytes 8 (encInt 64 x.m_) ++ toBytes 4 x.type_.toOrdinal ++
    toBytes 8 x.sname_.length ++ x.sname_.data.map Char.toNat

/-- Modelled from the spec: Index::read's body is not under src
(declaration only); it parses the same fields in the same fixed order,
surfacing truncated or corrupt content as a failure (none) instead of
silently yielding a corrupted Index. -/
def Index.read (s : List Nat) : Option (Index × List Nat) :=
  (readBytes 4 s).bind fun p1 =>
  (readBytes 4 p1.2).bind fun p2 =>
  (readBytes 8 p2.2).bind fun p3 =>
  (readBytes 4 p3.2).bind fun p4 =>
  (IndexType.ofOrdinal p4.1).bind fun t =>
  (readBytes 8 p4.2).bind fun p5 =>
  (readChars p5.1 p5.2).bind fun p6 =>
  some (⟨p1.1, decInt 32 p2.1, decInt 64 p3.1, t, String.mk p6.1⟩, p6.2)

/-- Helper: operator< is the lexicographic strict order on the
(m, id, primeLevel) triple. -/
theorem Index.lt_iff (a b : Index) :
    Index.lt a b = true ↔
      (a.m_ < b.m_ ∨ (a.m_ = b.m_ ∧ (a.id_ < b.id_ ∨
        (a.id_ = b.id_ ∧ a.primelevel_ < b.primelevel_)))) := by
  unfold Index.lt
  split_ifs with h1 h2 <;> simp_all

/-- C1: Index equality holds iff id and primeLevel both match; m, type and
name have no influence (replacing them changes nothing); operator!= is the
exact negation of operator==. -/
theorem beq_iff_id_and_primelevel (a b : Index) :
    (Index.beq a b = true ↔ a.id_ = b.id_ ∧ a.primelevel_ = b.primelevel_) ∧
    (∀ m' t' n', Index.beq ⟨a.id_, a.primelevel_, m', t', n'⟩ b = Index.beq a b) ∧
    Index.bne a b = !(Index.beq a b) := by
  refine ⟨?_, ?_, rfl⟩
  · simp [Index.beq]
  · intro m' t' n'
    simp [Index.beq]

/-- C10: two default-constructed (null) Index values carry id 0 and
primelevel 0, hence compare equal under both operator== and noprimeEquals. -/
theorem default_indices_equal :
    Index.default.id_ = 0 ∧ Index.default.primelevel_ = 0 ∧
    Index.beq Index.default Index.default = true ∧
    Index.noprimeEquals Index.default Index.default = true := by
  refine ⟨rfl, rfl, ?_, ?_⟩ <;> decide

/-- C3: operator> mirrors operator<; operator< compares by m ascending, on
tie by id, on tie by primeLevel; it is transitive and antisymmetric, and
total on Index values with distinct (m, id, primeLevel) triples, so any
list pairwise sorted by operator< is ascending by m, then id, then
primeLevel. -/
theorem lt_lex_trans_antisymm (a b c : Index) :
    Index.gt a b = Index.lt b a ∧
    (Index.lt a b = true ↔
      (a.m_ < b.m_ ∨ (a.m_ = b.m_ ∧ (a.id_ < b.id_ ∨
        (a.id_ = b.id_ ∧ a.primelevel_ < b.primelevel_))))) ∧
    (Index.lt a b = true → Index.lt b c = true → Index.lt a c = true) ∧
    (Index.lt a b = true → Index.lt b a = false) ∧
    ((a.m_, a.id_, a.primelevel_) ≠ (b.m_, b.id_, b.primelevel_) →
      Index.lt a b = true ∨ Index.lt b a = true) := by
  refine ⟨?_, Index.lt_iff a b, ?_, ?_, ?_⟩
  · unfold Index.gt Index.lt
    split_ifs <;> simp_all
  · intro h1 h2
    rw [Index.lt_iff] at h1 h2 ⊢
    omega
  · intro h
    rw [Index.lt_iff] at h
    by_contra hc
    rw [Bool.not_eq_false, Index.lt_iff] at hc
    omega
  · intro h
    rw [Index.lt_iff, Index.lt_iff]
    simp only [ne_eq, Prod.mk.injEq, not_and] at h
    omega

/-- C3 witness: a concrete transitivity instance obtained from the theorem. -/
theorem lt_lex_trans_antisymm_witness :
    Index.lt ⟨1, 0, 2, Link, "a"⟩ ⟨2, 1, 2, Link, "c"⟩ = true :=
  (lt_lex_trans_antisymm ⟨1, 0, 2, Link, "a"⟩ ⟨2, 0, 2, Link, "b"⟩
    ⟨2, 1, 2, Link, "c"⟩).2.2.1 (by decide) (by decide)

/-- C4: prime(inc) unconditionally adds inc to primeLevel and changes no
other field; the debug-build check signals an error exactly when the
resulting level is negative, so under primeLevel + inc >= 0 that branch is
unreachable; the release-mode function carries no check at all. -/
theorem prime_adds_inc (i : Index) (inc : Int) :
    (Index.prime i inc).primelevel_ = i.primelevel_ + inc ∧
    (Index.prime i inc).id_ = i.id_ ∧ (Index.prime i inc).m_ = i.m_ ∧
    (Index.prime i inc).type_ = i.type_ ∧
    (Index.prime i inc).sname_ = i.sname_ ∧
    (Index.primeDebug i inc = none ↔ i.primelevel_ + inc < 0) ∧
    (0 ≤ i.primelevel_ + inc →
      Index.primeDebug i inc = some (Index.prime i inc)) := by
  refine ⟨rfl, rfl, rfl, rfl, rfl, ?_, ?_⟩
  · unfold Index.primeDebug
    split_ifs with h <;> simp_all
  · intro h
    unfold Index.primeDebug
    rw [if_neg (by omega)]

/-- C4 witness: at primeLevel 2 and inc -1 the precondition holds and the
debug check passes. -/
theorem prime_adds_inc_witness :
    Index.primeDebug ⟨7, 2, 3, Link, "x"⟩ (-1) =
      some (Index.prime ⟨7, 2, 3, Link, "x"⟩ (-1)) :=
  (prime_adds_inc ⟨7, 2, 3, Link, "x"⟩ (-1)).2.2.2.2.2.2 (by decide)

/-- C5: prime(t, inc) leaves the Index completely unchanged when t differs
from both All and the Index's type, and adds inc to primeLevel when t
equals the type or is All. -/
theorem primeT_type_gated (i : Index) (t : IndexType) (inc : Int) :
    (t ≠ All → t ≠ i.type_ → Index.primeT i t inc = i) ∧
    ((t = All ∨ t = i.type_) →
      Index.primeT i t inc = { i with primelevel_ := i.primelevel_ + inc }) := by
  constructor
  · intro h1 h2
    unfold Index.primeT
    rw [if_neg]
    tauto
  · intro h
    unfold Index.primeT
    rw [if_pos h]

/-- C5 witness: a Site-gated prime on a Link Index is the identity. -/
theorem primeT_type_gated_witness :
    Index.primeT ⟨7, 0, 3, Link, "x"⟩ Site 1 = ⟨7, 0, 3, Link, "x"⟩ :=
  (primeT_type_gated ⟨7, 0, 3, Link, "x"⟩ Site 1).1 (by decide) (by decide)

/-- C6: mapprime sets primeLevel to plevnew exactly when the current level
equals plevold and the type matches (t equal to the type, or t = All);
any other starting level or a non-matching type leaves the Index entirely
unchanged.  Concretely, on a level-1 Index j: mapPrime j 1 5 has level 5
and mapPrime j 2 9 is a copy identical to j. -/
theorem mapprime_exact (i : Index) (po pn : Int) (t : IndexType) (idv : Nat) :
    (i.primelevel_ = po → (t = All ∨ t = i.type_) →
      Index.mapprime i po pn t = { i with primelevel_ := pn }) ∧
    (i.primelevel_ ≠ po → Index.mapprime i po pn t = i) ∧
    ((t ≠ All ∧ t ≠ i.type_) → Index.mapprime i po pn t = i) ∧
    (mapPrime (Index.mkNamed "i" 4 Link 1 idv) 1 5 All).primelevel_ = 5 ∧
    mapPrime (Index.mkNamed "i" 4 Link 1 idv) 2 9 All =
      Index.mkNamed "i" 4 Link 1 idv := by
  refine ⟨?_, ?_, ?_, ?_, ?_⟩
  · intro h1 h2
    unfold Index.mapprime
    rw [if_pos ⟨h1, h2⟩]
  · intro h
    unfold Index.mapprime
    rw [if_neg]
    tauto
  · intro h
    unfold Index.mapprime
    rw [if_neg]
    tauto
  · simp [mapPrime, PrimeLike.mapprimeMember, Index.mapprime, Index.mkNamed]
  · simp [mapPrime, PrimeLike.mapprimeMember, Index.mapprime, Index.mkNamed]

/-- C6 witness: a matching mapprime instance obtained from the theorem. -/
theorem mapprime_exact_witness :
    Index.mapprime ⟨7, 1, 4, Link, "i"⟩ 1 5 All =
      { (⟨7, 1, 4, Link, "i"⟩ : Index) with primelevel_ := 5 } :=
  (mapprime_exact ⟨7, 1, 4, Link, "i"⟩ 1 5 All 0).1 rfl (Or.inl rfl)

/-- C7: noprime(t) is exactly prime(t, -primeLevel()): a type match resets
the level to 0 and a mismatch is a no-op. -/
theorem noprime_resets (i : Index) (t : IndexType) :
    Index.noprime i t = Index.primeT i t (-(Index.primeLevel i)) ∧
    ((t = All ∨ t = i.type_) → (Index.noprime i t).primelevel_ = 0) ∧
    (t ≠ All → t ≠ i.type_ → Index.noprime i t = i) := by
  refine ⟨rfl, ?_, ?_⟩
  · intro h
    unfold Index.noprime Index.primeT
    rw [if_pos h]
    simp
  · intro h1 h2
    unfold Index.noprime Index.primeT
    rw [if_neg]
    tauto

/-- C7 witness: noprime with the wildcard on a level-3 Index gives level 0. -/
theorem noprime_resets_witness :
    (Index.noprime ⟨7, 3, 4, Link, "i"⟩ All).primelevel_ = 0 :=
  (noprime_resets ⟨7, 3, 4, Link, "i"⟩ All).2.1 (Or.inl rfl)

/-- C8: the free functions prime, noprime and mapPrime act by value for
both Index and IndexVal: each returns the member operation applied to a
copy of the argument, and the argument, being a pure value, is never
modified.  Concretely, for i = Index("i", 4) and j = prime(i): j.m = 4,
j.primeLevel = 1, j.id = i.id, i == j is false, i.noprimeEquals j is
true. -/
theorem free_functions_by_value (i : Index) (iv : IndexVal) (inc po pn : Int)
    (t : IndexType) (idv : Nat) :
    prime i inc = Index.prime i inc ∧
    noprime i t = Index.noprime i t ∧
    mapPrime i po pn t = Index.mapprime i po pn t ∧
    prime iv inc = IndexVal.prime iv inc ∧
    noprime iv t = IndexVal.noprime iv t ∧
    mapPrime iv po pn t = IndexVal.mapprime iv po pn t ∧
    (prime (Index.mkNamed "i" 4 Link 0 idv) 1).m = 4 ∧
    (prime (Index.mkNamed "i" 4 Link 0 idv) 1).primeLevel = 1 ∧
    (prime (Index.mkNamed "i" 4 Link 0 idv) 1).id =
      (Index.mkNamed "i" 4 Link 0 idv).id ∧
    Index.beq (Index.mkNamed "i" 4 Link 0 idv)
      (prime (Index.mkNamed "i" 4 Link 0 idv) 1) = false ∧
    Index.noprimeEquals (Index.mkNamed "i" 4 Link 0 idv)
      (prime (Index.mkNamed "i" 4 Link 0 idv) 1) = true := by
  refine ⟨rfl, rfl, rfl, rfl, rfl, rfl, rfl, rfl, rfl, ?_, ?_⟩
  · simp [Index.beq, prime, PrimeLike.primeMember, Index.prime, Index.mkNamed]
  · simp [Index.noprimeEquals, prime, PrimeLike.primeMember, Index.prime,
      Index.mkNamed]

/-- C9: the default Index has id 0, type NullIndex, m 1, primeLevel 0 and
boolean value false; explicitly constructing with type All or NullIndex is
the debug-build fatal error, and every named Index that passes the check
has boolean value true. -/
theorem null_sentinel (name : String) (m plev : Int) (t : IndexType)
    (idv : Nat) :
    Index.default.id_ = 0 ∧ Index.default.type_ = NullIndex ∧
    Index.default.m_ = 1 ∧ Index.default.primelevel_ = 0 ∧
    Index.toBool Index.default = false ∧
    (Index.mkNamedDebug name m t plev idv = none ↔ (t = All ∨ t = NullIndex)) ∧
    (∀ y, Index.mkNamedDebug name m t plev idv = some y →
      Index.toBool y = true) := by
  refine ⟨rfl, rfl, rfl, rfl, rfl, ?_, ?_⟩
  · unfold Index.mkNamedDebug
    split_ifs with h <;> simp [h]
  · intro y hy
    unfold Index.mkNamedDebug at hy
    split_ifs at hy with h
    · injection hy with hy2
      rw [← hy2]
      simp only [Index.toBool, Index.mkNamed, bne_iff_ne, ne_eq]
      tauto

/-- Helper: reading k bytes off the k-byte encoding of n recovers n modulo
256 to the k. -/
theorem readBytes_toBytes (k : Nat) (n : Nat) (rest : List Nat) :
    readBytes k (toBytes k n ++ rest) = some (n % 256 ^ k, rest) := by
  induction k generalizing n with
  | zero => simp [toBytes, readBytes, Nat.mod_one]
  | succ k ih =>
    simp only [toBytes, List.cons_append, readBytes, List.append_eq, ih]
    rw [pow_succ', Nat.mod_mul]

/-- Helper: reading back the byte images of a character list recovers it. -/
theorem readChars_map (cs : List Char) (rest : List Nat) :
    readChars cs.length (cs.map Char.toNat ++ rest) = some (cs, rest) := by
  induction cs with
  | nil => simp [readChars]
  | cons c cs ih =>
    simp [readChars, ih, Char.ofNat_toNat]

/-- Helper: ofOrdinal inverts toOrdinal. -/
theorem ofOrdinal_toOrdinal (t : IndexType) :
    IndexType.ofOrdinal t.toOrdinal = some t := by
  cases t <;> rfl

/-- Helper: 32-bit two's-complement decoding inverts encoding on the int
range. -/
theorem decInt_encInt_32 (i : Int) (h1 : -(2 ^ 31) ≤ i) (h2 : i < 2 ^ 31) :
    decInt 32 (encInt 32 i) = i := by
  unfold decInt encInt
  norm_num at h1 h2 ⊢
  split_ifs with h <;> omega

/-- Helper: 64-bit two's-complement decoding inverts encoding on the long
range. -/
theorem decInt_encInt_64 (i : Int) (h1 : -(2 ^ 63) ≤ i) (h2 : i < 2 ^ 63) :
    decInt 64 (encInt 64 i) = i := by
  unfold decInt encInt
  norm_num at h1 h2 ⊢
  split_ifs with h <;> omega

/-- Helper: a 32-bit encoding fits in four bytes. -/
theorem encInt_32_lt (i : Int) : encInt 32 i < 256 ^ 4 := by
  unfold encInt
  norm_num
  omega

/-- Helper: a 64-bit encoding fits in eight bytes. -/
theorem encInt_64_lt (i : Int) : encInt 64 i < 256 ^ 8 := by
  unfold encInt
  norm_num
  omega

/-- C2: reading back the bytes written for a valid Index (id within the
32-bit IDType, primeLevel within int range, m within long range, name of
representable length) reproduces the Index exactly: equal to the original
under both == and noprimeEquals, with identical name, m and type, and the
whole stream consumed. -/
theorem read_write_roundtrip (x : Index)
    (hid : x.id_ < 2 ^ 32)
    (hp1 : -(2 ^ 31) ≤ x.primelevel_) (hp2 : x.primelevel_ < 2 ^ 31)
    (hm1 : -(2 ^ 63) ≤ x.m_) (hm2 : x.m_ < 2 ^ 63)
    (hlen : x.sname_.length < 2 ^ 64) :
    ∃ y, Index.read (Index.write x) = some (y, []) ∧
      Index.beq y x = true ∧ Index.noprimeEquals y x = true ∧
      y.name = x.name ∧ y.m = x.m ∧ y.type = x.type ∧ y = x := by
  have h1 : x.id_ % 256 ^ 4 = x.id_ := by
    apply Nat.mod_eq_of_lt
    norm_num at hid ⊢
    exact hid
  have h2 : encInt 32 x.primelevel_ % 256 ^ 4 = encInt 32 x.primelevel_ :=
    Nat.mod_eq_of_lt (encInt_32_lt _)
  have h3 : encInt 64 x.m_ % 256 ^ 8 = encInt 64 x.m_ :=
    Nat.mod_eq_of_lt (encInt_64_lt _)
  have h4 : x.type_.toOrdinal % 256 ^ 4 = x.type_.toOrdinal :=
    Nat.mod_eq_of_lt (by cases x.type_ <;> norm_num [IndexType.toOrdinal])
  have h5 : x.sname_.data.length % 256 ^ 8 = x.sname_.data.length := by
    apply Nat.mod_eq_of_lt
    norm_num at hlen ⊢
    exact hlen
  have h6 : decInt 32 (encInt 32 x.primelevel_) = x.primelevel_ :=
    decInt_encInt_32 _ hp1 hp2
  have h7 : decInt 64 (encInt 64 x.m_) = x.m_ := decInt_encInt_64 _ hm1 hm2
  have h9 : x.sname_.length = x.sname_.data.length := rfl
  have h10 : readChars x.sname_.data.length (x.sname_.data.map Char.toNat) =
      some (x.sname_.data, []) := by
    have := readChars_map x.sname_.data []
    rwa [List.append_nil] at this
  refine ⟨x, ?_, by simp [Index.beq], by simp [Index.noprimeEquals],
    rfl, rfl, rfl, rfl⟩
  simp only [Index.write, Index.read, List.append_assoc, readBytes_toBytes,
    Option.some_bind, h1, h2, h3, h4, h5, ofOrdinal_toOrdinal, h6, h7, h9,
    h10]

/-- C2 witness: a concrete dimension-4 Link Index round-trips through the
codec. -/
theorem read_write_roundtrip_witness :
    ∃ y, Index.read (Index.write ⟨42, 1, 4, Link, "i"⟩) = some (y, []) ∧
      Index.beq y ⟨42, 1, 4, Link, "i"⟩ = true ∧
      Index.noprimeEquals y ⟨42, 1, 4, Link, "i"⟩ = true ∧
      y.name = Index.name ⟨42, 1, 4, Link, "i"⟩ ∧
      y.m = Index.m ⟨42, 1, 4, Link, "i"⟩ ∧
      y.type = Index.type ⟨42, 1, 4, Link, "i"⟩ ∧
      y = ⟨42, 1, 4, Link, "i"⟩ :=
  read_write_roundtrip ⟨42, 1, 4, Link, "i"⟩ (by decide) (by decide)
    (by decide) (by decide) (by decide) (by decide)

/-- C9 witness: a concrete Link Index passes the debug check and converts
to true. -/
theorem null_sentinel_witness :
    Index.toBool (Index.mkNamed "a" 2 Link 0 7) = true :=
  (null_sentinel "a" 2 0 Link 7).2.2.2.2.2.2 (Index.mkNamed "a" 2 Link 0 7)
    (by decide)

end itensor
